import Mathlib

/-!
Verification of the kml-backend server (`server.js`, multi-user variant).

The development shallowly embeds the path handling, pipeline argument
construction, run classification, KML conversion, record store, directory
listing sort and clear-all bookkeeping of the server, and proves the spec
claims about them.  JavaScript numbers that occur in the embedded code are
finite decimals; they are modelled exactly by `JsNum` (an integer mantissa
with a power-of-ten scale), with `renderJsNum` playing the role of JS
`Number.prototype.toString` on such values and `jsParseFloat`/`jsParseInt`
playing the roles of the JS global parse functions on the string shapes the
server feeds them.
-/

set_option maxRecDepth 100000

namespace KmlBackend

/-- Digit character for a value below ten, as produced by JS number printing. -/
def digitCh (n : Nat) : Char := Char.ofNat (48 + n % 10)

/-- Fuel-driven base-ten digit expansion of a natural number (most significant
digit first).  The fuel is an upper bound on the recursion depth; callers pass
a fuel larger than the number itself. -/
def natDigitsAux : Nat → Nat → List Char
  | 0, _ => []
  | fuel + 1, n => if n < 10 then [digitCh n] else natDigitsAux fuel (n / 10) ++ [digitCh (n % 10)]

/-- Decimal rendering of a natural number. -/
def natToStr (n : Nat) : String := ⟨natDigitsAux (n + 1) n⟩

/-- Decimal rendering of an integer, the way JS prints integral numbers. -/
def intToStr (i : Int) : String := if i < 0 then "-" ++ natToStr i.natAbs else natToStr i.natAbs

/-- Model of a JS number arising in the server: a finite decimal
`num / 10 ^ exp`.  All numeric metadata the server parses and all numeric
literals it prints are such values. -/
structure JsNum where
  num : Int
  exp : Nat
  deriving Repr, DecidableEq

/-- Remove factors of ten shared by the mantissa and the scale, mirroring the
fact that JS prints the shortest decimal form of a value. -/
def stripZeros : Int → Nat → Int × Nat
  | n, 0 => (n, 0)
  | n, e + 1 => if n % 10 = 0 then stripZeros (n / 10) e else (n, e + 1)

/-- Left-pad a character list with zeros up to length `e`. -/
def padZeros (e : Nat) (s : List Char) : List Char := List.replicate (e - s.length) '0' ++ s

/-- Model of JS `Number.prototype.toString` on finite decimals: shortest
decimal form, with a leading `0` before a bare fraction and a `-` sign for
negative values. -/
def renderJsNum (v : JsNum) : String :=
  let p := stripZeros v.num v.exp
  if p.2 = 0 then intToStr p.1
  else
    let sign := if p.1 < 0 then "-" else ""
    let m := p.1.natAbs
    sign ++ natToStr (m / 10 ^ p.2) ++ "." ++ ⟨padZeros p.2 (natToStr (m % 10 ^ p.2)).data⟩

/-- Longest leading run of ASCII digits of a character list, with the rest. -/
def takeDigits : List Char → List Char × List Char
  | [] => ([], [])
  | c :: cs => if c.isDigit then
      let p := takeDigits cs
      (c :: p.1, p.2)
    else ([], c :: cs)

/-- Value of a list of ASCII digits, most significant first. -/
def digitsVal (ds : List Char) : Nat := ds.foldl (fun a c => 10 * a + (c.toNat - 48)) 0

/-- Characters JS treats as whitespace at the start of a numeric string. -/
def isJsSpace (c : Char) : Bool := c = ' ' || c = '\t' || c = '\n' || c = '\r'

/-- Model of JS `parseFloat` on the strings the server feeds it: optional
leading whitespace and sign, integer digits, an optional fraction and an
optional exponent; trailing garbage is ignored.  `none` models `NaN`. -/
def jsParseFloat (s : String) : Option JsNum :=
  let cs := s.data.dropWhile isJsSpace
  let sg := match cs with
    | '-' :: r => (true, r)
    | '+' :: r => (false, r)
    | _ => (false, cs)
  let ip := takeDigits sg.2
  let fp := match ip.2 with
    | '.' :: r => takeDigits r
    | _ => ([], ip.2)
  if ip.1 = [] ∧ fp.1 = [] then none
  else
    let ex : Int := match fp.2 with
      | 'e' :: r | 'E' :: r =>
        match r with
        | '-' :: r2 => -(Int.ofNat (digitsVal (takeDigits r2).1))
        | '+' :: r2 => Int.ofNat (digitsVal (takeDigits r2).1)
        | _ => Int.ofNat (digitsVal (takeDigits r).1)
      | _ => 0
    let mant : Int := Int.ofNat (digitsVal (ip.1 ++ fp.1))
    let mant := if sg.1 then -mant else mant
    let scale : Int := Int.ofNat fp.1.length - ex
    if scale ≤ 0 then some ⟨mant * 10 ^ (-scale).toNat, 0⟩
    else some ⟨mant, scale.toNat⟩

/-- Model of JS `parseInt` with no radix argument on decimal strings: optional
leading whitespace and sign, then leading decimal digits; trailing garbage is
ignored.  `none` models `NaN`. -/
def jsParseInt (s : String) : Option Int :=
  let cs := s.data.dropWhile isJsSpace
  let sg := match cs with
    | '-' :: r => (true, r)
    | '+' :: r => (false, r)
    | _ => (false, cs)
  let ds := (takeDigits sg.2).1
  if ds = [] then none
  else
    let v : Int := Int.ofNat (digitsVal ds)
    some (if sg.1 then -v else v)

/-- JS `x || d` on a number `x`: `NaN`, `0` and `-0` are falsy and give `d`. -/
def jsOrNum (x : Option JsNum) (d : JsNum) : JsNum :=
  match x with
  | none => d
  | some v => if v.num = 0 then d else v

/-- JS `x || d` on an integer obtained from `parseInt`. -/
def jsOrInt (x : Option Int) (d : Int) : Int :=
  match x with
  | none => d
  | some v => if v = 0 then d else v

/-- JS `parseFloat` applied to a possibly absent metadata field: an absent
field is `undefined`, which `parseFloat` turns into `NaN`. -/
def parseFloatField (f : Option String) : Option JsNum :=
  match f with
  | none => none
  | some s => jsParseFloat s

/-- JS `parseInt` applied to a possibly absent metadata field. -/
def parseIntField (f : Option String) : Option Int :=
  match f with
  | none => none
  | some s => jsParseInt s

/-- Split a character list on a separator character. -/
def splitOnCh (sep : Char) : List Char → List (List Char)
  | [] => [[]]
  | c :: cs =>
    if c = sep then [] :: splitOnCh sep cs
    else
      match splitOnCh sep cs with
      | [] => [[c]]
      | s :: rest => (c :: s) :: rest

/-- Split a character list on the path separator.  Models the segmentation
step of Node's POSIX path normalization. -/
def splitCh : List Char → List (List Char) := splitOnCh '/'

/-- Normalize the segments of an absolute path: empty and `.` segments vanish
and `..` removes the previous segment (or nothing at the root), as Node's
`path.resolve`/`path.join` do on absolute paths. -/
def normAbs (segs : List (List Char)) : List (List Char) :=
  segs.foldl
    (fun acc seg =>
      if seg = [] ∨ seg = ['.'] then acc
      else if seg = ['.', '.'] then acc.dropLast
      else acc ++ [seg]) []

/-- Join segments back with the path separator. -/
def joinCh : List (List Char) → List Char
  | [] => []
  | [s] => s
  | s :: rest => s ++ '/' :: joinCh rest

/-- Model of Node `path.join` applied to an absolute first part: concatenate
all parts with separators and normalize. -/
def pathJoin (parts : List String) : String :=
  ⟨'/' :: joinCh (normAbs (parts.flatMap (fun p => splitCh p.data)))⟩

/-- Model of Node `path.resolve root p` for an absolute `root`: an absolute
`p` restarts resolution, otherwise `p` is joined onto `root`; the result is
normalized either way. -/
def pathResolve (root p : String) : String :=
  if p.data.head? = some '/' then ⟨'/' :: joinCh (normAbs (splitCh p.data))⟩
  else pathJoin [root, p]

/-- Model of JS `String.prototype.startsWith`: plain prefix test. -/
def strStartsWith (s pre : String) : Bool := pre.data.isPrefixOf s.data

/-- The containment check the server runs in `/download-folder`,
`/pipeline-files/*` and `/pipeline-folders` before touching the filesystem:
resolve the requested path against the root and test
`targetPath.startsWith(root)`.  `true` means the request is admitted. -/
def containCheck (root p : String) : Bool := strStartsWith (pathResolve root p) root

/-- A path lies within a root when it is the root itself or a descendant of
it (the root followed by a separator is a prefix of it). -/
def withinRoot (root p : String) : Bool :=
  p == root || (root.data ++ ['/']).isPrefixOf p.data

/-- Base directory of the server, standing for `__dirname`. -/
def dirnameStr : String := "/app"

/-- The server's `DATA_DIR`, `path.join(__dirname, 'data')`. -/
def DATA_DIR : String := pathJoin [dirnameStr, "data"]

/-- The users base directory, `path.join(DATA_DIR, 'users')`. -/
def usersBaseDir : String := pathJoin [DATA_DIR, "users"]

/-- The absolute path handles `getUserDirs` returns for an identity. -/
structure UserDirs where
  userDir : String
  uploadsDir : String
  pipelineDir : String
  dataFile : String
  deriving Repr, DecidableEq

/-- Path computation of the server's `getUserDirs`: the identity's directory
under `DATA_DIR/users` and the uploads folder, pipeline output root and
record file under it (the function also creates these directories, which is
not part of the path model). -/
def getUserDirs (username : String) : UserDirs :=
  let userDir := pathJoin [DATA_DIR, "users", username]
  { userDir := userDir
    uploadsDir := pathJoin [userDir, "uploads"]
    pipelineDir := pathJoin [userDir, "pipeline"]
    dataFile := pathJoin [userDir, "drawn_data.json"] }

/-- Number of occurrences of `pat` in a character list (positions where `pat`
is a prefix of the remaining suffix). -/
def countOccurCh (pat : List Char) : List Char → Nat
  | [] => 0
  | c :: rest => (if pat.isPrefixOf (c :: rest) then 1 else 0) + countOccurCh pat rest

/-- Number of occurrences of the pattern `pat` in the string `s`. -/
def countOccur (pat s : String) : Nat := countOccurCh pat.data s.data

/-- Geometry of an input feature.  The server reads the first two entries of
each position and branches on the `type` tag; a polygon's coordinate array is
its outer ring followed by its inner (hole) rings, and `other` stands for any
`type` tag different from the three supported ones. -/
inductive Geometry where
  | point (c : JsNum × JsNum)
  | lineString (cs : List (JsNum × JsNum))
  | polygon (outer : List (JsNum × JsNum)) (inners : List (List (JsNum × JsNum)))
  | other (kind : String)
  deriving Repr, DecidableEq

/-- An input feature: a geometry and an optional `properties.name` (absent or
empty names fall back to the generated ordinal label). -/
structure Feature where
  geometry : Geometry
  name : Option String
  deriving Repr, DecidableEq

/-- Rendering of one coordinate: its two input dimensions with a fixed zero
elevation appended, as in the template `x,y,0`. -/
def coordTriple (c : JsNum × JsNum) : String :=
  renderJsNum c.1 ++ "," ++ renderJsNum c.2 ++ ",0"

/-- Model of JS `array.join(' ')`. -/
def joinSpace : List String → String
  | [] => ""
  | [s] => s
  | s :: rest => s ++ " " ++ joinSpace rest

/-- Coordinate list of a ring or path, space-separated as in the source
(`coords.map(c => ...).join(' ')`). -/
def coordsText (cs : List (JsNum × JsNum)) : String := joinSpace (cs.map coordTriple)

/-- Concatenation of a list of strings, the accumulation of the inner-ring
loop. -/
def strConcat : List String → String
  | [] => ""
  | s :: rest => s ++ strConcat rest

/-- One inner-boundary block of a polygon, one per hole ring. -/
def innerBlock (ring : List (JsNum × JsNum)) : String :=
  "\n        <innerBoundaryIs>\n          <LinearRing>\n            <coordinates>"
    ++ coordsText ring
    ++ "</coordinates>\n          </LinearRing>\n        </innerBoundaryIs>"

/-- The geometry part of a placemark.  A `type` tag other than the three
supported ones matches none of the branches and contributes nothing. -/
def geomStr : Geometry → String
  | .point c =>
    "\n      <Point>\n        <coordinates>" ++ coordTriple c
      ++ "</coordinates>\n      </Point>"
  | .lineString cs =>
    "\n      <LineString>\n        <tessellate>1</tessellate>\n        <coordinates>"
      ++ coordsText cs ++ "</coordinates>\n      </LineString>"
  | .polygon outer inners =>
    "\n      <Polygon>\n        <tessellate>1</tessellate>\n        <outerBoundaryIs>\n          <LinearRing>\n            <coordinates>"
      ++ coordsText outer
      ++ "</coordinates>\n          </LinearRing>\n        </outerBoundaryIs>"
      ++ strConcat (inners.map innerBlock)
      ++ "\n      </Polygon>"
  | .other _ => ""

/-- Display name of the feature at index `i`:
`props.name || Feature (index + 1)`. -/
def featName (f : Feature) (i : Nat) : String :=
  match f.name with
  | some s => if s = "" then "Feature " ++ natToStr (i + 1) else s
  | none => "Feature " ++ natToStr (i + 1)

/-- The placemark the loop body appends for one feature: the placemark open
tag, name and style reference are emitted for every feature, then the
geometry part, then the close tag. -/
def featureStr (i : Nat) (f : Feature) : String :=
  "\n    <Placemark>\n      <name>" ++ featName f i
    ++ "</name>\n      <styleUrl>#defaultStyle</styleUrl>"
    ++ geomStr f.geometry
    ++ "\n    </Placemark>"

/-- The `forEach` accumulation over the features, carrying the index. -/
def featuresStr (i : Nat) : List Feature → String
  | [] => ""
  | f :: rest => featureStr i f ++ featuresStr (i + 1) rest

/-- Document header of `geojsonToKml`, including the document name and the
shared style. -/
def kmlHeader (name : String) : String :=
  "<?xml version=\"1.0\" encoding=\"UTF-8\"?>\n<kml xmlns=\"http://www.opengis.net/kml/2.2\">\n  <Document>\n    <name>"
    ++ name
    ++ "</name>\n    <Style id=\"defaultStyle\">\n      <PolyStyle>\n        <colorMode>normal</colorMode>\n        <fill>0</fill>\n        <outline>1</outline>\n      </PolyStyle>\n    </Style>"

/-- The server's `geojsonToKml`: header, one placemark per feature, footer. -/
def geojsonToKml (features : List Feature) (name : String) : String :=
  kmlHeader name ++ featuresStr 0 features ++ "\n  </Document>\n</kml>"

/-- The metadata fields `processWithPython` reads.  A `none` field models an
absent (`undefined`) property. -/
structure Metadata where
  chainage : Option String
  offsetType : Option String
  laneCount : Option String
  kmlMergeOffset : Option String
  deriving Repr, DecidableEq

/-- The argument vector `processWithPython` builds for the external tool,
script path first: input file, output root, then the six numeric parameters,
each one either the parsed metadata value or its default
(`parseFloat(x) || default` / `parseInt(x) || default`, printed back with
`toString`), with the sampling interval `"5"` and the lane step `"3.4"` as
fixed strings. -/
def pythonArgs (pythonScriptPath inputKmlPath pipelineDir : String) (m : Metadata) : List String :=
  [pythonScriptPath,
   inputKmlPath,
   pipelineDir,
   renderJsNum (jsOrNum (parseFloatField m.chainage) ⟨0, 0⟩),
   "5",
   intToStr (jsOrInt (parseIntField m.laneCount) 4),
   renderJsNum (jsOrNum (parseFloatField m.kmlMergeOffset) ⟨100, 3⟩),
   "3.4",
   renderJsNum (jsOrNum (parseFloatField m.offsetType) ⟨275, 2⟩)]

/-- Verdict of one pipeline run as classified by the `close` handler of the
spawned process. -/
inductive RunResult where
  | execError (code : Int) (message : String)
  | outputEmpty
  | success
  deriving Repr, DecidableEq

/-- The guard `fs.existsSync(dir) && fs.readdirSync(dir).length > 0`; the
argument is `none` when the folder does not exist and otherwise carries the
folder's entries. -/
def hasEntries (dir : Option (List String)) : Bool :=
  match dir with
  | some files => decide (files.length > 0)
  | none => false

/-- Classification of a finished run: a non-zero exit code rejects with the
captured error text (stderr, else stdout, else a fixed message); a zero exit
code proceeds to verification and rejects when both the `Excels` and the
`Merge_KMLs` folders have no entries, succeeding otherwise. -/
def classifyClose (code : Int) (stderrData stdoutData : String)
    (excelsDir mergeDir : Option (List String)) : RunResult :=
  if code ≠ 0 then
    .execError code
      (if stderrData ≠ "" then stderrData
       else if stdoutData ≠ "" then stdoutData
       else "Unknown error")
  else if ¬ hasEntries excelsDir ∧ ¬ hasEntries mergeDir then .outputEmpty
  else .success

/-- A stored submission record: metadata, geometry, generated id and
timestamp. -/
structure SubmissionRecord where
  metadata : Metadata
  geometry : List Feature
  id : Int
  timestamp : String
  deriving Repr, DecidableEq

/-- Effect of `/save` on the record file: the file is overwritten with a
one-element collection holding only the new record
(`JSON.stringify([newData])`), whatever it held before. -/
def saveRecord (newData : SubmissionRecord) (_oldContent : List SubmissionRecord) :
    List SubmissionRecord := [newData]

/-- Effect of `/data`: parse and return the record file's collection. -/
def readData (content : List SubmissionRecord) : List SubmissionRecord := content

/-- A directory entry as returned by `/pipeline-folders`. -/
structure FsEntry where
  name : String
  type : String
  path : String
  modifiedAt : Int
  deriving Repr, DecidableEq

/-- The comparator passed to `contents.sort`: a folder sorts before a file,
and otherwise entries compare by descending modification time. -/
def entryCmp (a b : FsEntry) : Int :=
  if a.type = "folder" ∧ ¬ b.type = "folder" then -1
  else if ¬ a.type = "folder" ∧ b.type = "folder" then 1
  else b.modifiedAt - a.modifiedAt

/-- The comparator admits `a` before `b` when it returns a non-positive
number. -/
def entryLe (a b : FsEntry) : Bool := decide (entryCmp a b ≤ 0)

/-- Stable insertion of `x` into a list: `x` moves past `y` only when `y`
is strictly admitted before `x`. -/
def insertLe (le : FsEntry → FsEntry → Bool) (x : FsEntry) : List FsEntry → List FsEntry
  | [] => [x]
  | y :: ys => if le y x ∧ ¬ le x y then y :: insertLe le x ys else x :: y :: ys

/-- Stable sort by a comparator-induced admission test, modelling
`Array.prototype.sort` with a consistent comparator. -/
def stableSort (le : FsEntry → FsEntry → Bool) : List FsEntry → List FsEntry
  | [] => []
  | x :: xs => insertLe le x (stableSort le xs)

/-- The sort the `/pipeline-folders` handler applies to the listing. -/
def sortEntries (l : List FsEntry) : List FsEntry := stableSort entryLe l

/-- Normalize the segments of a relative path, keeping leading `..`
segments, as Node `path.join` does on relative paths. -/
def normRel (segs : List (List Char)) : List (List Char) :=
  segs.foldl
    (fun acc seg =>
      if seg = [] ∨ seg = ['.'] then acc
      else if seg = ['.', '.'] then
        if acc = [] ∨ acc.getLast? = some ['.', '.'] then acc ++ [seg] else acc.dropLast
      else acc ++ [seg]) []

/-- Model of Node `path.join` on two relative parts (the normalized relative
path of a listing entry); an empty join is `.`. -/
def relJoin (a b : String) : String :=
  let s := joinCh (normRel (splitCh a.data ++ splitCh b.data))
  if s = [] then "." else ⟨s⟩

/-- A raw directory item as read with `readdirSync` plus its stat data. -/
structure FsItem where
  name : String
  isDirectory : Bool
  mtimeMs : Int
  deriving Repr, DecidableEq

/-- The listing entry built for one item: name, folder/file kind, normalized
relative path and modification time. -/
def toEntry (subPath : String) (it : FsItem) : FsEntry :=
  ⟨it.name, if it.isDirectory then "folder" else "file", relJoin subPath it.name, it.mtimeMs⟩

/-- The items list `/pipeline-folders` returns for an existing directory:
each raw item mapped to an entry, then sorted with the comparator. -/
def listPipelineFolders (subPath : String) (items : List FsItem) : List FsEntry :=
  sortEntries (items.map (toEntry subPath))

/-- Outcome of one guarded filesystem operation in `/clear-all`: the guard
was false (nothing to do), the operation succeeded, or it threw. -/
inductive Attempt where
  | skipped
  | succeeded
  | failed (msg : String)
  deriving Repr, DecidableEq

/-- Error log line of one attempted deletion, if it failed. -/
def attemptLog (ctx : String) (a : String × Attempt) : List String :=
  match a.2 with
  | .failed e => ["Error deleting " ++ ctx ++ " " ++ a.1 ++ ": " ++ e]
  | _ => []

/-- Error log of one directory section of `/clear-all`: nothing when the
directory does not exist, the read error when listing it threw, otherwise the
log lines of the failed per-item deletions. -/
def sectionLog (ctx : String) (sec : Option (Except String (List (String × Attempt)))) :
    List String :=
  match sec with
  | none => []
  | some (.error e) => ["Error reading " ++ ctx ++ ": " ++ e]
  | some (.ok items) => items.flatMap (attemptLog ctx)

/-- Environment of one `/clear-all` request: the outcome of every individual
deletion the handler attempts.  `critical` models an exception thrown outside
the per-item handlers (caught by the outer catch). -/
structure ClearEnv where
  critical : Option String
  dataFile : Option Attempt
  uploads : Option (Except String (List (String × Attempt)))
  subdirs : List (Option (Except String (List (String × Attempt))))
  pipelineRoot : Option (Except String (List (String × Attempt)))

/-- The JSON body the handler sends back. -/
structure JsonResponse where
  success : Bool
  message : String
  deriving Repr, DecidableEq

/-- The `/clear-all` handler: every individual failure is caught and logged;
the response is `success: true` both on the normal path and in the outer
catch. -/
def clearAllRespond (env : ClearEnv) : JsonResponse × List String :=
  match env.critical with
  | some e => (⟨true, "Clear completed with errors"⟩, ["Critical error in /clear-all: " ++ e])
  | none =>
    let dataLog :=
      match env.dataFile with
      | some (.failed e) => ["Error clearing data file: " ++ e]
      | _ => []
    let log :=
      dataLog
        ++ sectionLog "upload file" env.uploads
        ++ env.subdirs.flatMap (sectionLog "item")
        ++ sectionLog "root file" env.pipelineRoot
    (⟨true, "All data cleared successfully"⟩, log)

/-- A block `s` never lets an occurrence of `pat` start inside it and finish
past its right end: no nonempty suffix of `s` shorter than `pat` is a prefix
of `pat`. -/
def noSpan (pat : List Char) : List Char → Bool
  | [] => true
  | c :: cs =>
    (decide (pat.length ≤ (c :: cs).length) || ! (c :: cs).isPrefixOf pat) && noSpan pat cs

/-- The declarative order the spec states for listings: every folder before
every file, and inside one group newer entries before older ones. -/
def claimOrder (a b : FsEntry) : Prop :=
  (a.type = "folder" ∧ ¬ b.type = "folder")
    ∨ ((a.type = "folder" ↔ b.type = "folder") ∧ b.modifiedAt ≤ a.modifiedAt)

/-- A feature whose optional name, when present, contains no markup
opener. -/
def cleanName (f : Feature) : Prop := ∀ s, f.name = some s → '<' ∉ s.data

/-- Example point feature with position (10, 20). -/
def exPoint : Feature := ⟨.point (⟨10, 0⟩, ⟨20, 0⟩), none⟩

/-- Example path feature through (0,0) and (1,1). -/
def exLine : Feature := ⟨.lineString [(⟨0, 0⟩, ⟨0, 0⟩), (⟨1, 0⟩, ⟨1, 0⟩)], none⟩

/-- Example polygon feature: a four-point outer ring and one hole ring. -/
def exPoly : Feature :=
  ⟨.polygon
      [(⟨0, 0⟩, ⟨0, 0⟩), (⟨4, 0⟩, ⟨0, 0⟩), (⟨4, 0⟩, ⟨4, 0⟩), (⟨0, 0⟩, ⟨0, 0⟩)]
      [[(⟨1, 0⟩, ⟨1, 0⟩), (⟨2, 0⟩, ⟨1, 0⟩), (⟨1, 0⟩, ⟨1, 0⟩)]],
    none⟩

/-- Exchange document of the three example features. -/
def exDoc : String := geojsonToKml [exPoint, exLine, exPoly] "Drawn_Data"

/-- Exchange document of a single feature of an unsupported geometry kind. -/
def exOtherDoc : String := geojsonToKml [⟨.other "MultiPoint", none⟩] "Drawn_Data"

/-- Example raw listing: an older subfolder, a newest file and a newer
subfolder. -/
def exItems : List FsItem := [⟨"old", true, 10⟩, ⟨"report.xlsx", false, 30⟩, ⟨"new", true, 20⟩]

/-- A prefix of a list is a prefix of any right extension of it. -/
theorem prefix_trans_append {pat a : List Char} (b : List Char) (h : pat <+: a) :
    pat <+: a ++ b := h.trans (List.prefix_append a b)

/-- A prefix of an appended list that fits inside the left part is a prefix
of the left part. -/
theorem prefix_of_append_of_length_le {pat a b : List Char} (h : pat <+: a ++ b)
    (hl : pat.length ≤ a.length) : pat <+: a := by
  have ht := List.prefix_iff_eq_take.mp h
  rw [List.take_append_of_le_length hl] at ht
  rw [ht]
  exact List.take_prefix _ _

/-- Boolean form of an established prefix fact. -/
theorem isPrefixOf_true_of (pat a : List Char) (h : pat <+: a) : pat.isPrefixOf a = true :=
  List.isPrefixOf_iff_prefix.mpr h

/-- Boolean form of an established non-prefix fact. -/
theorem isPrefixOf_false_of (pat a : List Char) (h : ¬ pat <+: a) : pat.isPrefixOf a = false :=
  Bool.eq_false_iff.mpr (fun ht => h (List.isPrefixOf_iff_prefix.mp ht))

/-- Occurrence counting distributes over an append at a block boundary no
occurrence can straddle. -/
theorem countOccurCh_append (pat s rest : List Char) (h : noSpan pat s = true) :
    countOccurCh pat (s ++ rest) = countOccurCh pat s + countOccurCh pat rest := by
  induction s with
  | nil => simp [countOccurCh]
  | cons x xs ih =>
    rw [noSpan, Bool.and_eq_true] at h
    have key : pat.isPrefixOf (x :: (xs ++ rest)) = pat.isPrefixOf (x :: xs) := by
      by_cases hl : pat.length ≤ (x :: xs).length
      · by_cases hp : pat <+: (x :: xs)
        · have hq : pat <+: x :: (xs ++ rest) := by
            have := prefix_trans_append rest hp
            rwa [List.cons_append] at this
          rw [isPrefixOf_true_of _ _ hp, isPrefixOf_true_of _ _ hq]
        · have hq : ¬ pat <+: x :: (xs ++ rest) := by
            intro hq
            exact hp (prefix_of_append_of_length_le (by rwa [List.cons_append]) hl)
          rw [isPrefixOf_false_of _ _ hp, isPrefixOf_false_of _ _ hq]
      · have hxp : ¬ pat <+: (x :: xs) := fun hp => hl hp.length_le
        have hq : ¬ pat <+: x :: (xs ++ rest) := by
          intro hq
          have hq' : pat <+: (x :: xs) ++ rest := by rwa [List.cons_append]
          have hsx : (x :: xs) <+: pat :=
            List.prefix_of_prefix_length_le (List.prefix_append _ _) hq' (by omega)
          have h1 := h.1
          simp only [Bool.or_eq_true, decide_eq_true_eq] at h1
          rcases h1 with h1 | h1
          · exact hl h1
          · rw [isPrefixOf_true_of _ _ hsx] at h1
            simp at h1
        rw [isPrefixOf_false_of _ _ hxp, isPrefixOf_false_of _ _ hq]
    have hstep : countOccurCh pat ((x :: xs) ++ rest)
        = (if pat.isPrefixOf (x :: (xs ++ rest)) then 1 else 0) + countOccurCh pat (xs ++ rest) := by
      rw [List.cons_append, countOccurCh]
    rw [hstep, key, ih h.2, countOccurCh]
    omega

/-- A block avoiding the pattern's first character contributes no
occurrences, whatever follows it. -/
theorem countOccurCh_append_not_mem (pat s rest : List Char) (c : Char)
    (hc : pat.head? = some c) (h : c ∉ s) :
    countOccurCh pat (s ++ rest) = countOccurCh pat rest := by
  induction s with
  | nil => simp
  | cons x xs ih =>
    have hx : ¬ c = x := fun e => h (e ▸ List.mem_cons_self x xs)
    cases pat with
    | nil => simp at hc
    | cons p pat =>
      have hp : p = c := by simpa using hc
      have : (p :: pat).isPrefixOf (x :: (xs ++ rest)) = false := by
        simp [List.isPrefixOf]
        intro e
        exact absurd (e ▸ hp.symm) hx
      rw [List.cons_append, countOccurCh, this]
      simpa using ih (fun hm => h (List.mem_cons_of_mem x hm))

/-- A block avoiding the pattern's first character holds no occurrences. -/
theorem countOccurCh_not_mem (pat s : List Char) (c : Char)
    (hc : pat.head? = some c) (h : c ∉ s) : countOccurCh pat s = 0 := by
  have := countOccurCh_append_not_mem pat s [] c hc h
  simpa using this

/-- The digit character of any value is an ASCII digit. -/
theorem digitCh_isDigit (n : Nat) : (digitCh n).isDigit = true := by
  unfold digitCh
  have h : n % 10 < 10 := Nat.mod_lt _ (by norm_num)
  set k := n % 10 with hk
  interval_cases k <;> decide

/-- Every character the digit expansion produces is an ASCII digit. -/
theorem natDigitsAux_isDigit (fuel n : Nat) : ∀ c ∈ natDigitsAux fuel n, c.isDigit = true := by
  induction fuel generalizing n with
  | zero => intro c hc; simp [natDigitsAux] at hc
  | succ fuel ih =>
    intro c hc
    rw [natDigitsAux] at hc
    split at hc
    · simp at hc; subst hc; exact digitCh_isDigit n
    · rcases List.mem_append.mp hc with hm | hm
      · exact ih _ _ hm
      · simp at hm; subst hm; exact digitCh_isDigit _

/-- Every character of a printed natural number is an ASCII digit. -/
theorem natToStr_isDigit (n : Nat) : ∀ c ∈ (natToStr n).data, c.isDigit = true :=
  natDigitsAux_isDigit _ _

/-- A printed integer consists of digits and possibly a sign. -/
theorem intToStr_chars (i : Int) : ∀ c ∈ (intToStr i).data, c.isDigit = true ∨ c = '-' := by
  unfold intToStr
  split
  · intro c hc
    rw [String.data_append] at hc
    rcases List.mem_append.mp hc with hm | hm
    · right; simpa using hm
    · left; exact natToStr_isDigit _ _ hm
  · intro c hc; left; exact natToStr_isDigit _ _ hc

/-- Zero padding preserves digit-only content. -/
theorem padZeros_isDigit (e : Nat) (s : List Char) (h : ∀ c ∈ s, c.isDigit = true) :
    ∀ c ∈ padZeros e s, c.isDigit = true := by
  intro c hc
  rcases List.mem_append.mp hc with hm | hm
  · have := List.eq_of_mem_replicate hm; subst this; decide
  · exact h _ hm

/-- A printed JS number consists of digits, a sign and a decimal point. -/
theorem renderJsNum_chars (v : JsNum) :
    ∀ c ∈ (renderJsNum v).data, c.isDigit = true ∨ c = '-' ∨ c = '.' := by
  intro c hc
  simp only [renderJsNum] at hc
  split at hc
  · rcases intToStr_chars _ _ hc with h | h
    · exact Or.inl h
    · exact Or.inr (Or.inl h)
  · simp only [String.data_append] at hc
    rcases List.mem_append.mp hc with hm | hm
    · rcases List.mem_append.mp hm with hm2 | hm2
      · rcases List.mem_append.mp hm2 with hm3 | hm3
        · split at hm3
          · right; left; simpa using hm3
          · simp at hm3
        · left; exact natToStr_isDigit _ _ hm3
      · right; right; simpa using hm2
    · left; exact padZeros_isDigit _ _ (natToStr_isDigit _) _ hm

/-- A printed JS number never contains a markup opener. -/
theorem renderJsNum_no_lt (v : JsNum) : '<' ∉ (renderJsNum v).data := by
  intro hm
  rcases renderJsNum_chars v _ hm with h | h | h
  · exact absurd h (by decide)
  · exact absurd h (by decide)
  · exact absurd h (by decide)

/-- A printed JS number never contains a space. -/
theorem renderJsNum_no_space (v : JsNum) : ' ' ∉ (renderJsNum v).data := by
  intro hm
  rcases renderJsNum_chars v _ hm with h | h | h
  · exact absurd h (by decide)
  · exact absurd h (by decide)
  · exact absurd h (by decide)

/-- A rendered coordinate triple consists of number characters and commas. -/
theorem coordTriple_chars (p : JsNum × JsNum) :
    ∀ c ∈ (coordTriple p).data, c.isDigit = true ∨ c = '-' ∨ c = '.' ∨ c = ',' := by
  intro c hc
  unfold coordTriple at hc
  simp only [String.data_append, List.mem_append] at hc
  rcases hc with ((h1 | h2) | h3) | h4
  · rcases renderJsNum_chars _ _ h1 with h | h | h
    · exact Or.inl h
    · exact Or.inr (Or.inl h)
    · exact Or.inr (Or.inr (Or.inl h))
  · simp at h2
    right; right; right; exact h2
  · rcases renderJsNum_chars _ _ h3 with h | h | h
    · exact Or.inl h
    · exact Or.inr (Or.inl h)
    · exact Or.inr (Or.inr (Or.inl h))
  · simp at h4
    rcases h4 with h | h
    · right; right; right; exact h
    · left; subst h; decide

/-- A rendered coordinate triple never contains a markup opener. -/
theorem coordTriple_no_lt (p : JsNum × JsNum) : '<' ∉ (coordTriple p).data := by
  intro hm
  rcases coordTriple_chars p _ hm with h | h | h | h <;> exact absurd h (by decide)

/-- A rendered coordinate triple never contains a space. -/
theorem coordTriple_no_space (p : JsNum × JsNum) : ' ' ∉ (coordTriple p).data := by
  intro hm
  rcases coordTriple_chars p _ hm with h | h | h | h <;> exact absurd h (by decide)

/-- A character property that holds of the separator and of every part also
holds of the space-joined text. -/
theorem joinSpace_chars (P : Char → Prop) (hsep : P ' ') (l : List String)
    (h : ∀ s ∈ l, ∀ c ∈ s.data, P c) : ∀ c ∈ (joinSpace l).data, P c := by
  induction l with
  | nil => intro c hc; simp [joinSpace] at hc
  | cons s rest ih =>
    cases rest with
    | nil => intro c hc; exact h s (by simp) c (by simpa [joinSpace] using hc)
    | cons t ts =>
      intro c hc
      rw [show joinSpace (s :: t :: ts) = s ++ " " ++ joinSpace (t :: ts) from rfl] at hc
      simp only [String.data_append] at hc
      rcases List.mem_append.mp hc with hm | hm
      · rcases List.mem_append.mp hm with hm2 | hm2
        · exact h s (by simp) c hm2
        · simp at hm2; subst hm2; exact hsep
      · exact ih (fun u hu => h u (by simp [hu])) c hm

/-- A rendered coordinate list never contains a markup opener. -/
theorem coordsText_no_lt (cs : List (JsNum × JsNum)) : '<' ∉ (coordsText cs).data := by
  intro hm
  have := joinSpace_chars (fun c => c ≠ '<') (by decide) (cs.map coordTriple)
    (by
      intro s hs c hc
      rcases List.mem_map.mp hs with ⟨p, _, hp⟩
      subst hp
      intro e; subst e; exact coordTriple_no_lt p hc)
  exact this '<' hm rfl

/-- The display name of a clean feature never contains a markup opener. -/
theorem featName_no_lt (f : Feature) (i : Nat) (h : cleanName f) :
    '<' ∉ (featName f i).data := by
  have hdef : '<' ∉ ("Feature " ++ natToStr (i + 1)).data := by
    intro hm
    rw [String.data_append] at hm
    rcases List.mem_append.mp hm with hm2 | hm2
    · exact absurd hm2 (by decide)
    · exact absurd (natToStr_isDigit _ _ hm2) (by decide)
  cases hn : f.name with
  | none => simpa [featName, hn] using hdef
  | some s =>
    by_cases hs : s = ""
    · simpa [featName, hn, hs] using hdef
    · simpa [featName, hn, hs] using h s hn

/-- Append form of a zero-count block. -/
theorem countOccurCh_append_zero (pat s rest : List Char) (h : noSpan pat s = true)
    (h0 : countOccurCh pat s = 0) :
    countOccurCh pat (s ++ rest) = countOccurCh pat rest := by
  rw [countOccurCh_append pat s rest h, h0, Nat.zero_add]

/-- Append form of a one-count block. -/
theorem countOccurCh_append_one (pat s rest : List Char) (h : noSpan pat s = true)
    (h1 : countOccurCh pat s = 1) :
    countOccurCh pat (s ++ rest) = 1 + countOccurCh pat rest := by
  rw [countOccurCh_append pat s rest h, h1]

/-- The inner-ring blocks contribute no placemark occurrences. -/
theorem countPm_innerBlocks (rs : List (List (JsNum × JsNum))) (r : List Char) :
    countOccurCh "<Placemark>".data ((strConcat (rs.map innerBlock)).data ++ r)
      = countOccurCh "<Placemark>".data r := by
  induction rs with
  | nil => simp [strConcat]
  | cons ring rest ih =>
    simp only [List.map_cons, strConcat, innerBlock, String.data_append, List.append_assoc]
    rw [countOccurCh_append_zero _ _ _ (by decide) (by decide)]
    rw [countOccurCh_append_not_mem _ _ _ '<' (by decide) (coordsText_no_lt ring)]
    rw [countOccurCh_append_zero _ _ _ (by decide) (by decide)]
    exact ih

/-- The geometry part of a placemark contributes no placemark occurrences. -/
theorem countPm_geomStr (g : Geometry) (r : List Char) :
    countOccurCh "<Placemark>".data ((geomStr g).data ++ r)
      = countOccurCh "<Placemark>".data r := by
  cases g with
  | point c =>
    simp only [geomStr, String.data_append, List.append_assoc]
    rw [countOccurCh_append_zero _ _ _ (by decide) (by decide)]
    rw [countOccurCh_append_not_mem _ _ _ '<' (by decide) (coordTriple_no_lt c)]
    rw [countOccurCh_append_zero _ _ _ (by decide) (by decide)]
  | lineString cs =>
    simp only [geomStr, String.data_append, List.append_assoc]
    rw [countOccurCh_append_zero _ _ _ (by decide) (by decide)]
    rw [countOccurCh_append_not_mem _ _ _ '<' (by decide) (coordsText_no_lt cs)]
    rw [countOccurCh_append_zero _ _ _ (by decide) (by decide)]
  | polygon outer inners =>
    simp only [geomStr, String.data_append, List.append_assoc]
    rw [countOccurCh_append_zero _ _ _ (by decide) (by decide)]
    rw [countOccurCh_append_not_mem _ _ _ '<' (by decide) (coordsText_no_lt outer)]
    rw [countOccurCh_append_zero _ _ _ (by decide) (by decide)]
    rw [countPm_innerBlocks inners]
    rw [countOccurCh_append_zero _ _ _ (by decide) (by decide)]
  | other kind => simp [geomStr]

/-- Every feature's placemark block contributes exactly one placemark
occurrence, whatever its geometry kind. -/
theorem countPm_featureStr (i : Nat) (f : Feature) (r : List Char) (h : cleanName f) :
    countOccurCh "<Placemark>".data ((featureStr i f).data ++ r)
      = 1 + countOccurCh "<Placemark>".data r := by
  simp only [featureStr, String.data_append, List.append_assoc]
  rw [countOccurCh_append_one _ _ _ (by decide) (by decide)]
  rw [countOccurCh_append_not_mem _ _ _ '<' (by decide) (featName_no_lt f i h)]
  rw [countOccurCh_append_zero _ _ _ (by decide) (by decide)]
  rw [countPm_geomStr]
  rw [countOccurCh_append_zero _ _ _ (by decide) (by decide)]

/-- The feature loop contributes exactly one placemark occurrence per
feature. -/
theorem countPm_featuresStr (fs : List Feature) (i : Nat) (r : List Char)
    (h : ∀ f ∈ fs, cleanName f) :
    countOccurCh "<Placemark>".data ((featuresStr i fs).data ++ r)
      = fs.length + countOccurCh "<Placemark>".data r := by
  induction fs generalizing i with
  | nil => simp [featuresStr]
  | cons f rest ih =>
    simp only [featuresStr, String.data_append, List.append_assoc]
    rw [countPm_featureStr i f _ (h f (by simp))]
    rw [ih (i + 1) (fun g hg => h g (by simp [hg]))]
    simp [List.length_cons]
    omega

/-- The whole document holds exactly one placemark element per input
feature. -/
theorem countPm_doc (fs : List Feature) (docName : String) (hn : '<' ∉ docName.data)
    (h : ∀ f ∈ fs, cleanName f) :
    countOccur "<Placemark>" (geojsonToKml fs docName) = fs.length := by
  unfold countOccur geojsonToKml kmlHeader
  simp only [String.data_append, List.append_assoc]
  rw [countOccurCh_append_zero _ _ _ (by decide) (by decide)]
  rw [countOccurCh_append_not_mem _ _ _ '<' (by decide) hn]
  rw [countOccurCh_append_zero _ _ _ (by decide) (by decide)]
  rw [countPm_featuresStr fs 0 _ h]
  have hfoot : countOccurCh "<Placemark>".data ("\n  </Document>\n</kml>" : String).data = 0 := by
    decide
  rw [hfoot]
  omega

/-- The inner-ring blocks contribute exactly one inner-boundary occurrence
per hole ring. -/
theorem countIb_innerBlocks (rs : List (List (JsNum × JsNum))) (r : List Char) :
    countOccurCh "<innerBoundaryIs>".data ((strConcat (rs.map innerBlock)).data ++ r)
      = rs.length + countOccurCh "<innerBoundaryIs>".data r := by
  induction rs with
  | nil => simp [strConcat]
  | cons ring rest ih =>
    simp only [List.map_cons, strConcat, innerBlock, String.data_append, List.append_assoc]
    rw [countOccurCh_append_one _ _ _ (by decide) (by decide)]
    rw [countOccurCh_append_not_mem _ _ _ '<' (by decide) (coordsText_no_lt ring)]
    rw [countOccurCh_append_zero _ _ _ (by decide) (by decide)]
    rw [ih]
    simp [List.length_cons]
    omega

/-- A rendered polygon holds exactly one inner-boundary element per hole
ring of its input. -/
theorem countIb_polygon (outer : List (JsNum × JsNum)) (inners : List (List (JsNum × JsNum))) :
    countOccur "<innerBoundaryIs>" (geomStr (.polygon outer inners)) = inners.length := by
  unfold countOccur
  simp only [geomStr, String.data_append, List.append_assoc]
  rw [countOccurCh_append_zero _ _ _ (by decide) (by decide)]
  rw [countOccurCh_append_not_mem _ _ _ '<' (by decide) (coordsText_no_lt outer)]
  rw [countOccurCh_append_zero _ _ _ (by decide) (by decide)]
  rw [countIb_innerBlocks]
  have hend : countOccurCh "<innerBoundaryIs>".data ("\n      </Polygon>" : String).data = 0 := by
    decide
  rw [hend]
  omega

/-- Splitting always yields at least one segment. -/
theorem splitOnCh_ne_nil (sep : Char) (cs : List Char) : splitOnCh sep cs ≠ [] := by
  cases cs with
  | nil => simp [splitOnCh]
  | cons c cs =>
    rw [splitOnCh]
    split
    · simp
    · cases h : splitOnCh sep cs <;> simp

/-- A separator-free list splits into itself. -/
theorem splitOnCh_not_mem (sep : Char) (cs : List Char) (h : sep ∉ cs) :
    splitOnCh sep cs = [cs] := by
  induction cs with
  | nil => rfl
  | cons c cs ih =>
    have hc : ¬ c = sep := fun e => h (e ▸ List.mem_cons_self c cs)
    rw [splitOnCh, if_neg hc, ih (fun hm => h (List.mem_cons_of_mem _ hm))]

/-- Splitting concatenates across an explicit separator. -/
theorem splitOnCh_append_sep (sep : Char) (a b : List Char) :
    splitOnCh sep (a ++ sep :: b) = splitOnCh sep a ++ splitOnCh sep b := by
  induction a with
  | nil =>
    simp only [List.nil_append]
    rw [show splitOnCh sep ([] : List Char) = [[]] from rfl]
    rw [splitOnCh, if_pos rfl]
    rfl
  | cons c a ih =>
    by_cases hc : c = sep
    · subst hc
      rw [List.cons_append, splitOnCh, if_pos rfl, ih]
      rw [show splitOnCh c (c :: a) = [] :: splitOnCh c a from by rw [splitOnCh, if_pos rfl]]
      rfl
    · rcases ha : splitOnCh sep a with _ | ⟨s, rest⟩
      · exact absurd ha (splitOnCh_ne_nil sep a)
      · rw [List.cons_append, splitOnCh, if_neg hc, ih, ha]
        rw [show splitOnCh sep (c :: a) = (c :: s) :: rest from by rw [splitOnCh, if_neg hc, ha]]
        rfl

/-- Splitting a space-joined list of space-free parts recovers exactly the
parts, in order. -/
theorem splitOnCh_joinSpace (l : List String) (hl : l ≠ [])
    (h : ∀ s ∈ l, ' ' ∉ s.data) :
    splitOnCh ' ' (joinSpace l).data = l.map String.data := by
  induction l with
  | nil => exact absurd rfl hl
  | cons s rest ih =>
    cases rest with
    | nil =>
      simp only [joinSpace, List.map]
      exact splitOnCh_not_mem ' ' s.data (h s (by simp))
    | cons t ts =>
      rw [show joinSpace (s :: t :: ts) = s ++ " " ++ joinSpace (t :: ts) from rfl]
      simp only [String.data_append]
      rw [List.append_assoc, List.singleton_append]
      rw [splitOnCh_append_sep ' ' s.data _]
      rw [splitOnCh_not_mem ' ' s.data (h s (by simp))]
      rw [ih (by simp) (fun u hu => h u (by simp [hu]))]
      rfl

/-- Building a string from the character list of another string yields that
string. -/
theorem strMk_eq (l : List Char) (s : String) (h : l = s.data) : (⟨l⟩ : String) = s := by
  cases s
  exact congrArg String.mk h

/-- Absolute normalization appends an ordinary final segment unchanged. -/
theorem normAbs_append_seg (l : List (List Char)) (seg : List Char)
    (hnil : seg ≠ []) (hdot : seg ≠ ['.']) (hdd : seg ≠ ['.', '.']) :
    normAbs (l ++ [seg]) = normAbs l ++ [seg] := by
  unfold normAbs
  rw [List.foldl_append]
  simp [hnil, hdot, hdd]

/-- A nonempty string has a nonempty character list. -/
theorem ne_empty_data (u : String) (h : u ≠ "") : u.data ≠ [] :=
  fun e => h (by cases u; simpa using congrArg String.mk e)

/-- A string other than `.` has a character list other than `['.']`. -/
theorem ne_dot_data (u : String) (h : u ≠ ".") : u.data ≠ ['.'] :=
  fun e => h (by cases u; simpa using congrArg String.mk e)

/-- A string other than `..` has a character list other than `['.', '.']`. -/
theorem ne_ddot_data (u : String) (h : u ≠ "..") : u.data ≠ ['.', '.'] :=
  fun e => h (by cases u; simpa using congrArg String.mk e)

/-- The identity directory of a plain single-segment identity is the
identity's name under the users base. -/
theorem pathJoin_users (u : String) (h0 : u ≠ "") (h1 : u ≠ ".") (h2 : u ≠ "..")
    (hu : '/' ∉ u.data) :
    pathJoin [DATA_DIR, "users", u] = "/app/data/users/" ++ u := by
  unfold pathJoin
  apply strMk_eq
  rw [String.data_append]
  simp only [List.flatMap_cons, List.flatMap_nil, List.append_nil]
  rw [show splitCh u.data = splitOnCh '/' u.data from rfl, splitOnCh_not_mem '/' u.data hu]
  rw [← List.append_assoc]
  rw [show splitCh DATA_DIR.data ++ splitCh ("users" : String).data
      = [[], ['a','p','p'], ['d','a','t','a'], ['u','s','e','r','s']] from by decide]
  rw [normAbs_append_seg _ _ (ne_empty_data u h0) (ne_dot_data u h1) (ne_ddot_data u h2)]
  rw [show normAbs [[], ['a','p','p'], ['d','a','t','a'], ['u','s','e','r','s']]
      = [['a','p','p'], ['d','a','t','a'], ['u','s','e','r','s']] from by decide]
  rw [show ([['a','p','p'], ['d','a','t','a'], ['u','s','e','r','s']] : List (List Char)) ++ [u.data]
      = ['a','p','p'] :: ['d','a','t','a'] :: ['u','s','e','r','s'] :: [u.data] from by simp]
  rw [show joinCh (['a','p','p'] :: ['d','a','t','a'] :: ['u','s','e','r','s'] :: [u.data])
      = ['a','p','p'] ++ '/' :: (['d','a','t','a'] ++ '/' :: (['u','s','e','r','s'] ++ '/' :: u.data)) from rfl]
  simp

/-- Joining one further plain segment onto a plain identity directory
appends it under that directory. -/
theorem pathJoin_user_seg (u w : String) (h0 : u ≠ "") (h1 : u ≠ ".") (h2 : u ≠ "..")
    (hu : '/' ∉ u.data) (hw0 : w.data ≠ []) (hw1 : w.data ≠ ['.']) (hw2 : w.data ≠ ['.', '.'])
    (hw : '/' ∉ w.data) :
    pathJoin ["/app/data/users/" ++ u, w] = "/app/data/users/" ++ u ++ "/" ++ w := by
  unfold pathJoin
  apply strMk_eq
  simp only [List.flatMap_cons, List.flatMap_nil, List.append_nil]
  rw [show splitCh w.data = splitOnCh '/' w.data from rfl, splitOnCh_not_mem '/' w.data hw]
  have hsplit : splitCh (("/app/data/users/" ++ u) : String).data
      = [[], ['a','p','p'], ['d','a','t','a'], ['u','s','e','r','s']] ++ [u.data] := by
    rw [String.data_append]
    rw [show ("/app/data/users/" : String).data
        = ("/app/data/users" : String).data ++ ['/'] from rfl]
    rw [List.append_assoc, List.singleton_append]
    rw [show splitCh (("/app/data/users" : String).data ++ '/' :: u.data)
        = splitOnCh '/' (("/app/data/users" : String).data ++ '/' :: u.data) from rfl]
    rw [splitOnCh_append_sep]
    rw [splitOnCh_not_mem '/' u.data hu]
    rw [show splitOnCh '/' ("/app/data/users" : String).data
        = [[], ['a','p','p'], ['d','a','t','a'], ['u','s','e','r','s']] from by decide]
  rw [hsplit]
  rw [normAbs_append_seg _ _ hw0 hw1 hw2]
  rw [normAbs_append_seg _ _ (ne_empty_data u h0) (ne_dot_data u h1) (ne_ddot_data u h2)]
  rw [show normAbs [[], ['a','p','p'], ['d','a','t','a'], ['u','s','e','r','s']]
      = [['a','p','p'], ['d','a','t','a'], ['u','s','e','r','s']] from by decide]
  rw [show (([['a','p','p'], ['d','a','t','a'], ['u','s','e','r','s']] : List (List Char)) ++ [u.data]) ++ [w.data]
      = ['a','p','p'] :: ['d','a','t','a'] :: ['u','s','e','r','s'] :: u.data :: [w.data] from by simp]
  rw [show joinCh (['a','p','p'] :: ['d','a','t','a'] :: ['u','s','e','r','s'] :: u.data :: [w.data])
      = ['a','p','p'] ++ '/' :: (['d','a','t','a'] ++ '/' :: (['u','s','e','r','s'] ++ '/' :: (u.data ++ '/' :: w.data))) from rfl]
  simp [String.data_append]

/-- All four handles of a plain single-segment identity, computed. -/
theorem getUserDirs_plain (u : String) (h0 : u ≠ "") (h1 : u ≠ ".") (h2 : u ≠ "..")
    (hu : '/' ∉ u.data) :
    getUserDirs u =
      ⟨"/app/data/users/" ++ u,
       "/app/data/users/" ++ u ++ "/" ++ "uploads",
       "/app/data/users/" ++ u ++ "/" ++ "pipeline",
       "/app/data/users/" ++ u ++ "/" ++ "drawn_data.json"⟩ := by
  simp only [getUserDirs]
  rw [pathJoin_users u h0 h1 h2 hu]
  rw [pathJoin_user_seg u "uploads" h0 h1 h2 hu (by decide) (by decide) (by decide) (by decide)]
  rw [pathJoin_user_seg u "pipeline" h0 h1 h2 hu (by decide) (by decide) (by decide) (by decide)]
  rw [pathJoin_user_seg u "drawn_data.json" h0 h1 h2 hu (by decide) (by decide) (by decide) (by decide)]

/-- Every path lies within itself. -/
theorem withinRoot_self (a : String) : withinRoot a a = true := by
  unfold withinRoot
  simp

/-- A path extended by a separator and a suffix lies within the original
path. -/
theorem withinRoot_append (r w : String) : withinRoot r (r ++ "/" ++ w) = true := by
  unfold withinRoot
  have h : (r.data ++ ['/']).isPrefixOf ((r ++ "/" ++ w) : String).data = true := by
    apply isPrefixOf_true_of
    rw [String.data_append, String.data_append]
    rw [show ("/" : String).data = ['/'] from rfl]
    exact List.prefix_append _ _
  rw [h]
  simp

theorem stripZeros_num_ne_zero (n : Int) (e : Nat) (h : n ≠ 0) : (stripZeros n e).1 ≠ 0 := by
  induction e generalizing n with
  | zero => simpa [stripZeros]
  | succ e ih =>
    rw [stripZeros]
    split
    · rename_i hmod
      apply ih
      intro hq
      have := Int.emod_add_ediv n 10
      omega
    · exact h

theorem natDigitsAux_ne_nil (fuel n : Nat) (h : fuel ≠ 0) : natDigitsAux fuel n ≠ [] := by
  cases fuel with
  | zero => exact absurd rfl h
  | succ fuel =>
    rw [natDigitsAux]
    split <;> simp

theorem natToStr_ne_zero_str (n : Nat) (h : n ≠ 0) : natToStr n ≠ "0" := by
  unfold natToStr
  intro e
  have hd : natDigitsAux (n + 1) n = ['0'] := by simpa using congrArg String.data e
  by_cases hn : n < 10
  · rw [natDigitsAux, if_pos hn] at hd
    simp at hd
    unfold digitCh at hd
    rw [Nat.mod_eq_of_lt hn] at hd
    interval_cases n
    · exact h rfl
    all_goals exact absurd hd (by decide)
  · rw [natDigitsAux, if_neg hn] at hd
    have hne : natDigitsAux n (n / 10) ≠ [] := natDigitsAux_ne_nil n (n / 10) (by omega)
    have hlen := congrArg List.length hd
    rw [List.length_append] at hlen
    simp at hlen
    exact hne hlen

theorem intToStr_ne_zero (i : Int) (h : i ≠ 0) : intToStr i ≠ "0" := by
  unfold intToStr
  split
  · intro e
    have hdata := congrArg String.data e
    rw [String.data_append] at hdata
    have h2 := congrArg List.head? hdata
    rw [show ("-" : String).data = ['-'] from rfl] at h2
    simp at h2
  · apply natToStr_ne_zero_str
    simp only [ne_eq, Int.natAbs_eq_zero]
    exact h

theorem renderJsNum_ne_zero (v : JsNum) (h : v.num ≠ 0) : renderJsNum v ≠ "0" := by
  intro e
  simp only [renderJsNum] at e
  split at e
  · exact intToStr_ne_zero _ (stripZeros_num_ne_zero v.num v.exp h) e
  · have hdata := congrArg String.data e
    simp only [String.data_append] at hdata
    have hmem : '.' ∈ (['0'] : List Char) := by
      rw [← hdata]
      simp [List.mem_append]
    exact absurd hmem (by decide)

theorem jsOrNum_num_ne_zero (x : Option JsNum) (d : JsNum) (hd : d.num ≠ 0) :
    (jsOrNum x d).num ≠ 0 := by
  unfold jsOrNum
  cases x with
  | none => exact hd
  | some v =>
    by_cases hv : v.num = 0
    · simp [hv]; exact hd
    · simp [hv]

theorem insertLe_perm (le : FsEntry → FsEntry → Bool) (x : FsEntry) (l : List FsEntry) :
    List.Perm (insertLe le x l) (x :: l) := by
  induction l with
  | nil => exact List.Perm.refl _
  | cons y ys ih =>
    rw [insertLe]
    split
    · exact (List.Perm.cons y ih).trans (List.Perm.swap x y ys)
    · exact List.Perm.refl _

theorem stableSort_perm (le : FsEntry → FsEntry → Bool) (l : List FsEntry) :
    List.Perm (stableSort le l) l := by
  induction l with
  | nil => exact List.Perm.refl _
  | cons x xs ih =>
    rw [stableSort]
    exact (insertLe_perm le x _).trans (List.Perm.cons x ih)

theorem mem_insertLe (le : FsEntry → FsEntry → Bool) (x : FsEntry) (l : List FsEntry)
    (z : FsEntry) : z ∈ insertLe le x l ↔ z = x ∨ z ∈ l := by
  rw [(insertLe_perm le x l).mem_iff]
  simp

theorem insertLe_sorted (le : FsEntry → FsEntry → Bool)
    (htot : ∀ a b, le a b = true ∨ le b a = true)
    (htrans : ∀ a b c, le a b = true → le b c = true → le a c = true)
    (x : FsEntry) (l : List FsEntry) (h : l.Pairwise (fun a b => le a b = true)) :
    (insertLe le x l).Pairwise (fun a b => le a b = true) := by
  induction l with
  | nil => simp [insertLe]
  | cons y ys ih =>
    rw [insertLe]
    rcases List.pairwise_cons.mp h with ⟨hy, hys⟩
    split
    · rename_i hcase
      apply List.pairwise_cons.mpr
      refine ⟨?_, ih hys⟩
      intro z hz
      rcases (mem_insertLe le x ys z).mp hz with rfl | hz
      · exact hcase.1
      · exact hy z hz
    · rename_i hcase
      push_neg at hcase
      have hxy : le x y = true := by
        rcases htot x y with h1 | h1
        · exact h1
        · exact hcase h1
      apply List.pairwise_cons.mpr
      refine ⟨?_, h⟩
      intro z hz
      rcases List.mem_cons.mp hz with rfl | hz
      · exact hxy
      · exact htrans x y z hxy (hy z hz)

theorem stableSort_sorted (le : FsEntry → FsEntry → Bool)
    (htot : ∀ a b, le a b = true ∨ le b a = true)
    (htrans : ∀ a b c, le a b = true → le b c = true → le a c = true)
    (l : List FsEntry) :
    (stableSort le l).Pairwise (fun a b => le a b = true) := by
  induction l with
  | nil => simp [stableSort]
  | cons x xs ih =>
    rw [stableSort]
    exact insertLe_sorted le htot htrans x _ ih

theorem entryLe_total (a b : FsEntry) : entryLe a b = true ∨ entryLe b a = true := by
  unfold entryLe entryCmp
  by_cases ha : a.type = "folder" <;> by_cases hb : b.type = "folder" <;>
    simp [ha, hb] <;> omega

theorem entryLe_trans (a b c : FsEntry) (h1 : entryLe a b = true) (h2 : entryLe b c = true) :
    entryLe a c = true := by
  unfold entryLe entryCmp at h1 h2 ⊢
  by_cases ha : a.type = "folder" <;> by_cases hb : b.type = "folder" <;>
    by_cases hc : c.type = "folder" <;> simp [ha, hb, hc] at h1 h2 ⊢ <;> omega

theorem entryLe_claimOrder (a b : FsEntry) (h : entryLe a b = true) : claimOrder a b := by
  unfold entryLe entryCmp at h
  unfold claimOrder
  by_cases ha : a.type = "folder" <;> by_cases hb : b.type = "folder" <;>
    simp [ha, hb] at h ⊢ <;> omega
/-- C3: a pipeline run whose process exits with code zero but whose
spreadsheet (Excels) and merged-output (Merge_KMLs) folders both contain no
files is classified as the output-empty failure and never as success, while
a zero-exit run with at least one entry in either folder succeeds. -/
theorem classifyClose_zero_exit (stderrData stdoutData : String)
    (excelsDir mergeDir : Option (List String)) :
    (hasEntries excelsDir = false → hasEntries mergeDir = false →
      classifyClose 0 stderrData stdoutData excelsDir mergeDir = .outputEmpty
        ∧ classifyClose 0 stderrData stdoutData excelsDir mergeDir ≠ .success)
    ∧ (hasEntries excelsDir = true ∨ hasEntries mergeDir = true →
      classifyClose 0 stderrData stdoutData excelsDir mergeDir = .success) := by
  constructor
  · intro h1 h2
    unfold classifyClose
    simp [h1, h2]
  · intro h
    unfold classifyClose
    rcases h with h | h <;> simp [h]

/-- Witness for C3: a zero-exit run with both folders empty is rejected as
output-empty, and one with a spreadsheet entry succeeds. -/
theorem classifyClose_zero_exit_witness :
    classifyClose 0 "" "" (some []) (some []) = .outputEmpty
      ∧ classifyClose 0 "" "" (some ["out.xlsx"]) (some []) = .success :=
  ⟨((classifyClose_zero_exit "" "" (some []) (some [])).1 (by decide) (by decide)).1,
   (classifyClose_zero_exit "" "" (some ["out.xlsx"]) (some [])).2 (by decide)⟩

/-- C7: the record store keeps at most one record per identity: every save
overwrites the file with a one-element collection holding only the new
record, so after saving A and then B the read-back is exactly the
one-element collection holding B. -/
theorem saveRecord_single_slot (A B : SubmissionRecord) (s0 : List SubmissionRecord) :
    readData (saveRecord B (saveRecord A s0)) = [B]
      ∧ (readData (saveRecord B (saveRecord A s0))).length = 1
      ∧ ∀ (r : SubmissionRecord) (s : List SubmissionRecord), saveRecord r s = [r] :=
  ⟨rfl, rfl, fun _ _ => rfl⟩

/-- C9: the clear-all handler reports success to the caller whatever the
outcomes of the individual deletions: the response body always carries
success true, on the normal path and on the critical-error path alike. -/
theorem clearAllRespond_always_success (env : ClearEnv) :
    (clearAllRespond env).1.success = true
      ∧ ((clearAllRespond env).1 = ⟨true, "All data cleared successfully"⟩
          ∨ (clearAllRespond env).1 = ⟨true, "Clear completed with errors"⟩) := by
  unfold clearAllRespond
  cases env.critical <;> simp

/-- C4: the pipeline invocation builds exactly eight positional values after
the tool script path, in the order input path, output root, chainage-start
(default 0 when absent or non-numeric), the constant 5, lane count (default
4), merge offset (default 0.1), the constant 3.4 and median offset (default
2.75); for chainage 100 and lane count 2 with the other fields absent the
vector ends in 100, 5, 2, 0.1, 3.4, 2.75. -/
theorem pythonArgs_contract (s i d : String) (m : Metadata) :
    (pythonArgs s i d m).length = 9
    ∧ (pythonArgs s i d m).take 3 = [s, i, d]
    ∧ (pythonArgs s i d m)[4]? = some "5"
    ∧ (pythonArgs s i d m)[7]? = some "3.4"
    ∧ (parseFloatField m.chainage = none → (pythonArgs s i d m)[3]? = some "0")
    ∧ (parseIntField m.laneCount = none → (pythonArgs s i d m)[5]? = some "4")
    ∧ (parseFloatField m.kmlMergeOffset = none → (pythonArgs s i d m)[6]? = some "0.1")
    ∧ (parseFloatField m.offsetType = none → (pythonArgs s i d m)[8]? = some "2.75")
    ∧ (pythonArgs s i d ⟨some "100", none, some "2", none⟩).drop 3
        = ["100", "5", "2", "0.1", "3.4", "2.75"] := by
  refine ⟨rfl, rfl, rfl, rfl, ?_, ?_, ?_, ?_, rfl⟩
  all_goals intro h
  all_goals simp only [pythonArgs, h]
  all_goals rfl

/-- Witness for C4: with every numeric metadata field absent, the four
defaulted slots carry 0, 4, 0.1 and 2.75. -/
theorem pythonArgs_contract_witness :
    (pythonArgs "/s" "/i" "/d" (⟨none, none, none, none⟩ : Metadata))[3]? = some "0"
    ∧ (pythonArgs "/s" "/i" "/d" (⟨none, none, none, none⟩ : Metadata))[5]? = some "4"
    ∧ (pythonArgs "/s" "/i" "/d" (⟨none, none, none, none⟩ : Metadata))[6]? = some "0.1"
    ∧ (pythonArgs "/s" "/i" "/d" (⟨none, none, none, none⟩ : Metadata))[8]? = some "2.75" :=
  ⟨(pythonArgs_contract "/s" "/i" "/d" _).2.2.2.2.1 rfl,
   (pythonArgs_contract "/s" "/i" "/d" _).2.2.2.2.2.1 rfl,
   (pythonArgs_contract "/s" "/i" "/d" _).2.2.2.2.2.2.1 rfl,
   (pythonArgs_contract "/s" "/i" "/d" _).2.2.2.2.2.2.2.1 rfl⟩

/-- C10: a metadata value that parses to the number zero is replaced by the
parameter default exactly like an absent or non-numeric one: chainage 0
stays 0 only because the default is also 0, merge offset 0 becomes 0.1 and
median offset 0 becomes 2.75; in general a zero-parsed merge or median
value yields the default, and the merge-offset and median-offset argument
strings are never the string 0. -/
theorem pythonArgs_zero_collapsed (s i d : String) (m : Metadata) :
    (pythonArgs s i d ⟨some "0", none, none, none⟩)[3]? = some "0"
    ∧ (pythonArgs s i d ⟨none, none, none, some "0"⟩)[6]? = some "0.1"
    ∧ (pythonArgs s i d ⟨none, some "0", none, none⟩)[8]? = some "2.75"
    ∧ (∀ v : JsNum, parseFloatField m.kmlMergeOffset = some v → v.num = 0 →
        (pythonArgs s i d m)[6]? = some "0.1")
    ∧ (∀ v : JsNum, parseFloatField m.offsetType = some v → v.num = 0 →
        (pythonArgs s i d m)[8]? = some "2.75")
    ∧ (pythonArgs s i d m)[6]? ≠ some "0"
    ∧ (pythonArgs s i d m)[8]? ≠ some "0" := by
  refine ⟨rfl, rfl, rfl, ?_, ?_, ?_, ?_⟩
  · intro v hv hz
    simp only [pythonArgs, hv]
    simp only [jsOrNum, hz, if_pos]
    rfl
  · intro v hv hz
    simp only [pythonArgs, hv]
    simp only [jsOrNum, hz, if_pos]
    rfl
  · intro e
    have h6 : (pythonArgs s i d m)[6]?
        = some (renderJsNum (jsOrNum (parseFloatField m.kmlMergeOffset) ⟨100, 3⟩)) := rfl
    rw [h6] at e
    have := renderJsNum_ne_zero _
      (jsOrNum_num_ne_zero (parseFloatField m.kmlMergeOffset) ⟨100, 3⟩ (by decide))
    exact this (Option.some.inj e)
  · intro e
    have h8 : (pythonArgs s i d m)[8]?
        = some (renderJsNum (jsOrNum (parseFloatField m.offsetType) ⟨275, 2⟩)) := rfl
    rw [h8] at e
    have := renderJsNum_ne_zero _
      (jsOrNum_num_ne_zero (parseFloatField m.offsetType) ⟨275, 2⟩ (by decide))
    exact this (Option.some.inj e)

/-- Witness for C10: supplying the string 0 for the merge offset yields the
default argument 0.1, and for the median offset the default 2.75. -/
theorem pythonArgs_zero_collapsed_witness :
    (pythonArgs "/s" "/i" "/d" (⟨none, none, none, some "0"⟩ : Metadata))[6]? = some "0.1"
    ∧ (pythonArgs "/s" "/i" "/d" (⟨none, some "0", none, none⟩ : Metadata))[8]? = some "2.75" :=
  ⟨(pythonArgs_zero_collapsed "/s" "/i" "/d" ⟨none, none, none, some "0"⟩).2.2.2.1
      ⟨0, 0⟩ rfl rfl,
   (pythonArgs_zero_collapsed "/s" "/i" "/d" ⟨none, some "0", none, none⟩).2.2.2.2.1
      ⟨0, 0⟩ rfl rfl⟩

/-- C8: the sorted listing places every folder before every file and each
group newest first (it is pairwise ordered by the declarative rule and is a
permutation of the built entries), and the example of an older folder, a
newer folder and a newest file lists the newer folder, the older folder,
then the file. -/
theorem listPipelineFolders_sorted (subPath : String) (items : List FsItem) :
    (listPipelineFolders subPath items).Pairwise claimOrder
    ∧ List.Perm (listPipelineFolders subPath items) (items.map (toEntry subPath))
    ∧ listPipelineFolders "" exItems
        = [⟨"new", "folder", "new", 20⟩, ⟨"old", "folder", "old", 10⟩,
           ⟨"report.xlsx", "file", "report.xlsx", 30⟩] := by
  refine ⟨?_, ?_, by decide⟩
  · unfold listPipelineFolders sortEntries
    exact (stableSort_sorted entryLe entryLe_total entryLe_trans _).imp
      (fun h => entryLe_claimOrder _ _ h)
  · unfold listPipelineFolders sortEntries
    exact stableSort_perm entryLe _

/-- C1: the containment check admits every request whose resolution lies
within the pipeline root, but it is a plain string-prefix test, so it also
admits the sibling escape: for identity alice the request ../pipelineEvil
resolves to the sibling directory pipelineEvil outside the pipeline root
and still passes the check. -/
theorem containCheck_prefix_flaw :
    (∀ root p : String, withinRoot root (pathResolve root p) = true →
      containCheck root p = true)
    ∧ containCheck (getUserDirs "alice").pipelineDir "../pipelineEvil" = true
    ∧ pathResolve (getUserDirs "alice").pipelineDir "../pipelineEvil"
        = "/app/data/users/alice/pipelineEvil"
    ∧ withinRoot (getUserDirs "alice").pipelineDir
        (pathResolve (getUserDirs "alice").pipelineDir "../pipelineEvil") = false := by
  refine ⟨?_, by decide, by decide, by decide⟩
  intro root p h
  unfold withinRoot at h
  unfold containCheck strStartsWith
  rcases Bool.or_eq_true_iff.mp h with h | h
  · have he : pathResolve root p = root := by simpa using h
    rw [he]
    exact isPrefixOf_true_of _ _ (List.prefix_refl _)
  · apply isPrefixOf_true_of
    exact (List.prefix_append root.data ['/']).trans (List.isPrefixOf_iff_prefix.mp h)

/-- Witness for C1: a plain subfolder request inside the pipeline root is
admitted by the containment check. -/
theorem containCheck_prefix_flaw_witness :
    containCheck (getUserDirs "alice").pipelineDir "Merge_KMLs" = true :=
  containCheck_prefix_flaw.1 (getUserDirs "alice").pipelineDir "Merge_KMLs" (by decide)

/-- C2 counterexample: for the identity ../../etc the resolved identity
directory is /app/etc, which lies outside the users base directory and so
outside any identity subtree of it. -/
theorem getUserDirs_escapes_users_base :
    (getUserDirs "../../etc").userDir = "/app/etc"
    ∧ withinRoot usersBaseDir (getUserDirs "../../etc").userDir = false :=
  ⟨by decide, by decide⟩

/-- C2 amended: for every identity that is one plain path segment
(nonempty, not a dot segment, without separators), resolving the workspace
returns the identity directory at the identity's name under the users base
and all four handles lie within the identity's own subtree. -/
theorem getUserDirs_within_identity_subtree (u : String) (h0 : u ≠ "") (h1 : u ≠ ".")
    (h2 : u ≠ "..") (hu : '/' ∉ u.data) :
    (getUserDirs u).userDir = usersBaseDir ++ "/" ++ u
    ∧ withinRoot (usersBaseDir ++ "/" ++ u) (getUserDirs u).userDir = true
    ∧ withinRoot (usersBaseDir ++ "/" ++ u) (getUserDirs u).uploadsDir = true
    ∧ withinRoot (usersBaseDir ++ "/" ++ u) (getUserDirs u).pipelineDir = true
    ∧ withinRoot (usersBaseDir ++ "/" ++ u) (getUserDirs u).dataFile = true := by
  have hbase : usersBaseDir ++ "/" = "/app/data/users/" := by decide
  have hroot : usersBaseDir ++ "/" ++ u = "/app/data/users/" ++ u := by
    rw [show usersBaseDir ++ "/" ++ u = (usersBaseDir ++ "/") ++ u from rfl, hbase]
  rw [getUserDirs_plain u h0 h1 h2 hu, hroot]
  exact ⟨rfl, withinRoot_self _, withinRoot_append _ _, withinRoot_append _ _,
    withinRoot_append _ _⟩

/-- Witness for C2 amended: the pipeline root of the identity alice lies
within the alice subtree of the users base. -/
theorem getUserDirs_within_identity_subtree_witness :
    withinRoot (usersBaseDir ++ "/" ++ "alice") (getUserDirs "alice").pipelineDir = true :=
  (getUserDirs_within_identity_subtree "alice" (by decide) (by decide) (by decide)
    (by decide)).2.2.2.1

/-- C5 counterexample: a single feature of unsupported geometry kind still
yields a document with one placemark element (carrying no geometry child),
so the feature is not omitted from the output. -/
theorem geojsonToKml_unsupported_not_omitted :
    countOccur "<Placemark>" exOtherDoc = 1
    ∧ countOccur "<Point>" exOtherDoc = 0
    ∧ countOccur "<LineString>" exOtherDoc = 0
    ∧ countOccur "<Polygon>" exOtherDoc = 0 :=
  ⟨by decide, by decide, by decide, by decide⟩

/-- C5 amended: the conversion raises no error on unsupported geometry
kinds but does not omit them: it emits one placemark element for every
feature, unsupported kinds included, whose geometry part is the empty
string. -/
theorem geojsonToKml_placemark_per_feature (fs : List Feature) (docName : String)
    (hn : '<' ∉ docName.data) (h : ∀ f ∈ fs, cleanName f) :
    countOccur "<Placemark>" (geojsonToKml fs docName) = fs.length
    ∧ ∀ kind, geomStr (.other kind) = "" :=
  ⟨countPm_doc fs docName hn h, fun _ => rfl⟩

/-- Witness for C5 amended: one unsupported feature yields exactly one
placemark element. -/
theorem geojsonToKml_placemark_per_feature_witness :
    countOccur "<Placemark>" (geojsonToKml [⟨.other "MultiPoint", none⟩] "Drawn_Data") = 1 :=
  (geojsonToKml_placemark_per_feature [⟨.other "MultiPoint", none⟩] "Drawn_Data" (by decide)
    (by
      intro f hf
      simp at hf
      subst hf
      intro s hs
      simp at hs)).1

/-- C6: the conversion preserves coordinate order, hole count and the
two-dimensions-plus-zero-elevation form: splitting a rendered coordinate
list on spaces returns exactly the input coordinates' triples in order, a
polygon carries exactly one inner-boundary element per input hole ring,
and the example point, path and polygon yield a document with exactly
three placemark elements, one hole and the expected coordinate texts. -/
theorem geojsonToKml_structure :
    (∀ cs : List (JsNum × JsNum), cs ≠ [] →
      splitOnCh ' ' (coordsText cs).data = cs.map (fun c => (coordTriple c).data))
    ∧ (∀ (outer : List (JsNum × JsNum)) (inners : List (List (JsNum × JsNum))),
        countOccur "<innerBoundaryIs>" (geomStr (.polygon outer inners)) = inners.length)
    ∧ countOccur "<Placemark>" exDoc = 3
    ∧ countOccur "<innerBoundaryIs>" exDoc = 1
    ∧ countOccur "<coordinates>10,20,0</coordinates>" exDoc = 1
    ∧ countOccur "<coordinates>0,0,0 1,1,0</coordinates>" exDoc = 1
    ∧ countOccur "<coordinates>0,0,0 4,0,0 4,4,0 0,0,0</coordinates>" exDoc = 1
    ∧ countOccur "<coordinates>1,1,0 2,1,0 1,1,0</coordinates>" exDoc = 1 := by
  refine ⟨?_, ?_, by decide, by decide, by decide, by decide, by decide, by decide⟩
  · intro cs hcs
    unfold coordsText
    rw [splitOnCh_joinSpace (cs.map coordTriple) (by simpa using hcs)
        (by
          intro t ht
          rcases List.mem_map.mp ht with ⟨p, _, rfl⟩
          exact coordTriple_no_space p)]
    rw [List.map_map]
    rfl
  · exact fun outer inners => countIb_polygon outer inners

/-- Witness for C6: splitting the rendered coordinates of the example path
recovers its two triples in order. -/
theorem geojsonToKml_structure_witness :
    splitOnCh ' ' (coordsText [((⟨0, 0⟩ : JsNum), (⟨0, 0⟩ : JsNum)), (⟨1, 0⟩, ⟨1, 0⟩)]).data
      = [((⟨0, 0⟩ : JsNum), (⟨0, 0⟩ : JsNum)), (⟨1, 0⟩, ⟨1, 0⟩)].map
          (fun c => (coordTriple c).data) :=
  geojsonToKml_structure.1 _ (by decide)

end KmlBackend
